import Mathlib

/-!
Verification development for the pg_search query-pushdown planner/executor.

The repository surface (src/pg_search/src/lib.rs) holds the planner constants
(UNASSIGNED/UNKNOWN/PARAMETERIZED/FULL_RELATION selectivities, DEFAULT_STARTUP_COST),
the memoized `available_parallelism` helper, and two user-dictionary maintenance
functions (`update_or_add_user_dict`, `delete_from_user_dict`).  The selectivity
estimator, filter-query translator, cost model and parallel-execution coordinator
live in modules whose sources are not in the shown surface; those components are
modelled from the specification (each such definition says so in its doc comment).

Floating-point (`f64`) planner values are embedded as rationals (`ℚ`): every claim
about them concerns ordering and exact equality with fixed decimal constants, all
of which are exactly representable and decidable over `ℚ`.
-/

namespace PgSearch

/-- Postgres sentinel for a selectivity that has not been assigned (`-1.0` in the source). -/
def UNASSIGNED_SELECTIVITY : ℚ := -1

/-- Hardcoded selectivity when no good value can be computed (`0.00001` in the source). -/
def UNKNOWN_SELECTIVITY : ℚ := 1 / 100000

/-- Hardcoded selectivity for parameterized plan queries (`0.10` in the source). -/
def PARAMETERIZED_SELECTIVITY : ℚ := 1 / 10

/-- Selectivity indicating the entire relation will be returned (`1.0` in the source). -/
def FULL_RELATION_SELECTIVITY : ℚ := 1

/-- Fixed startup overhead of a pushdown path (`10.0` in the source). -/
def DEFAULT_STARTUP_COST : ℚ := 10

/-- Comparison operators appearing at predicate leaves.  `funcCall` stands for a
function call over the indexed column, which the index cannot express. -/
inductive CmpOp
  | eqOp
  | ltOp
  | searchOp
  | funcCall
deriving DecidableEq

/-- Right-hand operand of a leaf comparison: a constant, a parameter bound at plan
time, or a run-time parameter not bound at plan time. -/
inductive Operand
  | const (v : Int)
  | boundParam (idx : Nat)
  | unboundParam (idx : Nat)
deriving DecidableEq

/-- Predicate expression tree: boolean combinators over leaf comparisons, plus the
tautology over the relation. -/
inductive Pred
  | tt
  | andP (a b : Pred)
  | orP (a b : Pred)
  | notP (a : Pred)
  | cmp (op : CmpOp) (field : String) (rhs : Operand)
deriving DecidableEq

/-- Whether every operator in the predicate is one the index supports. -/
def predSupported : Pred → Bool
  | .tt => true
  | .andP a b => predSupported a && predSupported b
  | .orP a b => predSupported a && predSupported b
  | .notP a => predSupported a
  | .cmp op _ _ => op ≠ CmpOp.funcCall

/-- Whether the predicate references a run-time parameter not bound at plan time. -/
def hasUnboundParam : Pred → Bool
  | .tt => false
  | .andP a b => hasUnboundParam a || hasUnboundParam b
  | .orP a b => hasUnboundParam a || hasUnboundParam b
  | .notP a => hasUnboundParam a
  | .cmp _ _ (.unboundParam _) => true
  | .cmp _ _ _ => false

/-- Index statistics: a term histogram (field, document frequency) and the total
document count. -/
structure IndexStats where
  histogram : List (String × Nat)
  totalDocs : Nat
deriving DecidableEq

/-- Document frequency reported by the statistics for a field, zero when absent. -/
def docFreq (s : IndexStats) (field : String) : Nat :=
  ((s.histogram.find? (fun kv => kv.1 = field)).map Prod.snd).getD 0

/-- Sum of document frequencies over the query terms of a predicate. -/
def freqSum (s : IndexStats) : Pred → Nat
  | .tt => s.totalDocs
  | .andP a b => freqSum s a + freqSum s b
  | .orP a b => freqSum s a + freqSum s b
  | .notP a => freqSum s a
  | .cmp _ field _ => docFreq s field

/-- Clamp a rational to the interval `[0, 1]`. -/
def clamp01 (q : ℚ) : ℚ := max 0 (min 1 q)

/-- Modelled from the spec: the Selectivity Estimator (`estimate(predicate, stats)`),
whose source module is not in the shown surface.  Follows the ordered contract of
spec section 4.1: unsupported operator yields UNASSIGNED; absent statistics or an
unbound run-time parameter yields PARAMETERIZED; an uninformative (empty) histogram
yields UNKNOWN; a tautology yields FULL_RELATION; otherwise a document-frequency
ratio clamped to `[0, 1]`. -/
def estimate (p : Pred) (stats : Option IndexStats) : ℚ :=
  if predSupported p then
    match stats with
    | none => PARAMETERIZED_SELECTIVITY
    | some s =>
      if hasUnboundParam p then PARAMETERIZED_SELECTIVITY
      else if s.histogram.isEmpty then UNKNOWN_SELECTIVITY
      else if p = Pred.tt then FULL_RELATION_SELECTIVITY
      else clamp01 ((freqSum s p : ℚ) / (s.totalDocs : ℚ))
  else UNASSIGNED_SELECTIVITY

/-- Indexed field type of a column, as recorded in the index schema. -/
inductive FieldType
  | text
  | numeric
  | unindexed
deriving DecidableEq

/-- Index-native structured filter query: boolean combinators over term, range and
phrase leaf clauses, plus runtime-bound parameter placeholders. -/
inductive FilterQuery
  | all
  | must (a b : FilterQuery)
  | should (a b : FilterQuery)
  | mustNot (a : FilterQuery)
  | term (field : String) (v : Int)
  | range (field : String) (v : Int)
  | phrase (field : String) (v : Int)
  | placeholder (field : String) (idx : Nat)
deriving DecidableEq

/-- Modelled from the spec: the Filter Query Translator
(`translate(predicate) -> Result<FilterQuery, UnsupportedPredicate>`), whose source
module is not in the shown surface.  Boolean nodes map to boolean combinators; each
leaf maps to a term, range or phrase clause by field type; parameters become
runtime-bound placeholders; unsupported leaves fail with `UnsupportedPredicate`
(embedded as `Except.error ()`). -/
def translate (schema : String → FieldType) : Pred → Except Unit FilterQuery
  | .tt => .ok .all
  | .andP a b =>
    match translate schema a, translate schema b with
    | .ok qa, .ok qb => .ok (.must qa qb)
    | _, _ => .error ()
  | .orP a b =>
    match translate schema a, translate schema b with
    | .ok qa, .ok qb => .ok (.should qa qb)
    | _, _ => .error ()
  | .notP a =>
    match translate schema a with
    | .ok qa => .ok (.mustNot qa)
    | _ => .error ()
  | .cmp op field rhs =>
    match op, schema field, rhs with
    | .funcCall, _, _ => .error ()
    | _, .unindexed, _ => .error ()
    | _, _, .boundParam i => .ok (.placeholder field i)
    | _, _, .unboundParam i => .ok (.placeholder field i)
    | .eqOp, _, .const v => .ok (.term field v)
    | .ltOp, _, .const v => .ok (.range field v)
    | .searchOp, .text, .const v => .ok (.phrase field v)
    | .searchOp, .numeric, .const _v => .error ()

/-- Path cost pair handed to the host planner. -/
structure PathCost where
  startup_cost : ℚ
  total_cost : ℚ
deriving DecidableEq

/-- Modelled from the spec: the Cost Model
(`cost(selectivity, relation_row_count, ..., startup_const) -> PathCost`), whose
source module is not in the shown surface.  Startup cost is the fixed startup
constant; total cost adds `selectivity * relation_row_count * per_row_probe_cost`. -/
def cost (selectivity relation_row_count per_row_probe_cost : ℚ) : PathCost :=
  { startup_cost := DEFAULT_STARTUP_COST
    total_cost := DEFAULT_STARTUP_COST + selectivity * relation_row_count * per_row_probe_cost }

/-- Modelled from the spec: one parallel work unit, a hashed slice of the index's
identifier space (spec section 3 allows a contiguous or hashed slice; the hashed
form assigns identifier `x` to worker `x % worker_count`). -/
def workUnit (total_identifier_space worker_count i : Nat) : List Nat :=
  (List.range total_identifier_space).filter (fun x => x % worker_count = i)

/-- Modelled from the spec: the Parallel Execution Coordinator's
`partition(total_identifier_space, worker_count) -> [WorkUnit]`, whose source module
is not in the shown surface. -/
def partition (total_identifier_space worker_count : Nat) : List (List Nat) :=
  (List.range worker_count).map (workUnit total_identifier_space worker_count)

/-- Decomposable aggregate kinds the index computes natively (spec section 4.6:
sum, min/max, count-add). -/
inductive AggKind
  | sumAgg
  | minAgg
  | maxAgg
  | countAgg
deriving DecidableEq

/-- Per-aggregate associative combine operation on accumulator values. -/
def combine : AggKind → Int → Int → Int
  | .sumAgg, a, b => a + b
  | .minAgg, a, b => min a b
  | .maxAgg, a, b => max a b
  | .countAgg, a, b => a + b

/-- Combine lifted to optional accumulators: a key absent from a worker's partial
set (`none`) contributes the aggregate's identity element. -/
def combineOpt (k : AggKind) : Option Int → Option Int → Option Int
  | none, b => b
  | some a, none => some a
  | some a, some b => some (combine k a b)

/-- A per-key partial accumulator produced by one worker: an association list from
grouping key to accumulator value. -/
abbrev PartialAcc : Type := List (Nat × Int)

/-- Value a partial accumulator holds for a grouping key, `none` when the key is
absent from that worker's partial set. -/
def accLookup (p : PartialAcc) (g : Nat) : Option Int :=
  ((List.find? (fun kv => kv.1 = g) p).map Prod.snd)

/-- Modelled from the spec: the Coordinator's aggregate merge at one grouping key —
combine the same-key values of all workers' partials with the aggregate's combine
operation, keys absent from a partial contributing the identity. -/
def mergedAt (k : AggKind) (partials : List PartialAcc) (g : Nat) : Option Int :=
  (partials.map (fun p => accLookup p g)).foldl (combineOpt k) none

/-- Outcome of one parallel worker: it either reported its partial accumulator over
its work unit, or terminated abnormally (equivalently, its result channel closed
without a terminal message) before reporting. -/
inductive WorkerOutcome
  | reported (acc : PartialAcc)
  | failed
deriving DecidableEq

/-- Whether a worker outcome is an abnormal termination. -/
def WorkerOutcome.isFailed : WorkerOutcome → Bool
  | .reported _ => false
  | .failed => true

/-- Partial accumulator of a worker outcome, if it reported one. -/
def WorkerOutcome.acc? : WorkerOutcome → Option PartialAcc
  | .reported a => some a
  | .failed => none

/-- Modelled from the spec: the Coordinator's end of a pushdown execution.  If any
worker terminated abnormally before reporting, the whole execution fails with a hard
execution error; otherwise the reported partials are merged per grouping key. -/
def coordinate (k : AggKind) (outcomes : List WorkerOutcome) :
    Except String (Nat → Option Int) :=
  if outcomes.any WorkerOutcome.isFailed then
    .error "parallel worker failed before reporting"
  else
    .ok (mergedAt k (outcomes.filterMap WorkerOutcome.acc?))

/-- Dictionary lines and words are embedded as their character sequences
(`List Char`), matching Rust's view of a `str` as a sequence of Unicode scalar
values; the text operations the source uses (`trim`, `starts_with`,
`split_whitespace`, `parse`) are given their direct character-list definitions
below so every definition evaluates inside the kernel. -/
abbrev Chars : Type := List Char

/-- Rust `str::trim`: drop leading and trailing whitespace. -/
def trimChars (cs : Chars) : Chars :=
  ((cs.dropWhile Char.isWhitespace).reverse.dropWhile Char.isWhitespace).reverse

/-- Rust `starts_with('#')`. -/
def startsWithHash (cs : Chars) : Bool :=
  match cs with
  | c :: _ => c = '#'
  | [] => false

/-- Rust `split_whitespace`: split at whitespace characters and drop empty pieces. -/
def splitWS (cs : Chars) : List Chars :=
  (cs.splitOnP Char.isWhitespace).filter (fun t => t ≠ [])

/-- Rust `str::parse::<i32>`: an optionally signed decimal integer in the i32
range; anything else (empty digits, non-digits, overflow) parses to `none`. -/
def parseI32 (cs : Chars) : Option Int :=
  let sign : Int := match cs with | '-' :: _ => -1 | _ => 1
  let ds : Chars := match cs with | '+' :: rest => rest | '-' :: rest => rest | _ => cs
  if !ds.isEmpty && ds.all Char.isDigit then
    let v : Int := sign * (ds.foldl (fun acc c => acc * 10 + (c.toNat - 48)) 0 : Nat)
    if -2147483648 ≤ v ∧ v ≤ 2147483647 then some v else none
  else none

/-- Rust `format!` of an `i32`: minus sign for negatives, then decimal digits. -/
def intChars (i : Int) : Chars :=
  if i < 0 then '-' :: Nat.toDigits 10 i.natAbs else Nat.toDigits 10 i.natAbs

/-- Default frequency for a newly added dictionary entry (`DEFAULT_FREQ` in the source). -/
def DEFAULT_FREQ : Int := 1000

/-- Message returned when the word exists and no modification is needed
(source lines 229 and 298, ASCII quotes written as unicode escapes). -/
def msgExistsNoMod (word : Chars) : String :=
  "词条 \u0027" ++ String.mk word ++ "\u0027 已存在且无需修改，无操作执行"

/-- Message returned when an existing entry was updated (source line 292). -/
def msgUpdated (word : Chars) : String := "词条 \u0027" ++ String.mk word ++ "\u0027 已更新"

/-- Message returned when a new entry was added (source line 294). -/
def msgAdded (word : Chars) : String := "词条 \u0027" ++ String.mk word ++ "\u0027 已添加"

/-- Loop of `update_or_add_user_dict` over the dictionary lines (source lines
192-252).  `Except.error msg` is the early return taken when the word exists and
neither field needs modification; `Except.ok (lines, found)` carries the rewritten
lines and whether the word was found. -/
def updateLoop (word : Chars) (freq : Option Int) (tag : Option Chars) :
    List Chars → Except String (List Chars × Bool)
  | [] => .ok ([], false)
  | line :: rest =>
    let trimmed := trimChars line
    if trimmed.isEmpty || startsWithHash trimmed then
      match updateLoop word freq tag rest with
      | .error m => .error m
      | .ok (ls, f) => .ok (line :: ls, f)
    else
      match splitWS trimmed with
      | [] =>
        match updateLoop word freq tag rest with
        | .error m => .error m
        | .ok (ls, f) => .ok (line :: ls, f)
      | existing_word :: restParts =>
        if existing_word = word then
          let old_freq := restParts.head?.bind parseI32
          let old_tag := (restParts[1]?).getD []
          let new_freq := match freq with | some f => some f | none => old_freq
          let new_tag := match tag with | some t => t | none => old_tag
          let freq_unchanged := freq.isNone && (new_freq == old_freq)
          let tag_unchanged := tag.isNone && (new_tag == old_tag)
          if freq_unchanged && tag_unchanged then
            .error (msgExistsNoMod word)
          else
            let new_line :=
              match new_freq with
              | some f =>
                if new_tag.isEmpty then word ++ ' ' :: intChars f
                else word ++ ' ' :: intChars f ++ ' ' :: new_tag
              | none =>
                if !new_tag.isEmpty then word ++ ' ' :: new_tag
                else word
            match updateLoop word freq tag rest with
            | .error m => .error m
            | .ok (ls, _f) => .ok (new_line :: ls, true)
        else
          match updateLoop word freq tag rest with
          | .error m => .error m
          | .ok (ls, f) => .ok (line :: ls, f)

/-- Embedding of `update_or_add_user_dict` (source lines 157-300) over the
dictionary file's contents given as a list of lines (the file exists and all I/O
succeeds; path resolution is outside the model).  The second component is the
lines written back, or `none` when the function returns without writing. -/
def update_or_add_user_dict (word : Chars) (freq : Option Int) (tag : Option Chars)
    (dictLines : List Chars) : String × Option (List Chars) :=
  match updateLoop word freq tag dictLines with
  | .error msg => (msg, none)
  | .ok (ls, found) =>
    if found then (msgUpdated word, some ls)
    else
      let new_freq := freq.getD DEFAULT_FREQ
      let new_tag := tag.getD []
      let new_line :=
        if new_tag.isEmpty then word ++ ' ' :: intChars new_freq
        else word ++ ' ' :: intChars new_freq ++ ' ' :: new_tag
      (msgAdded word, some (ls ++ [new_line]))

/-- Whether a dictionary line is an empty or comment line, which
`delete_from_user_dict` always preserves (source lines 371-375). -/
def isPreservedLine (line : Chars) : Bool :=
  (trimChars line).isEmpty || startsWithHash (trimChars line)

/-- Whether `delete_from_user_dict` deletes the line: a non-empty, non-comment
line whose first whitespace-separated token is in the delete set
(source lines 378-384). -/
def lineDeleted (deleteSet : List Chars) (line : Chars) : Bool :=
  if isPreservedLine line then false
  else
    match (splitWS (trimChars line)).head? with
    | some entry => deleteSet.contains entry
    | none => false

/-- Embedding of `delete_from_user_dict` (source lines 313-401) over the dictionary
file's contents given as a list of lines (the file exists and all I/O succeeds;
path resolution and the path shown in the success message are outside the model).
The second component is the lines written back, or `none` when the function
returns without writing. -/
def delete_from_user_dict (words : List (Option Chars)) (fileLines : List Chars) :
    String × Option (List Chars) :=
  let words_vec := words.filterMap id
  if words_vec.isEmpty then ("未提供要删除的词条", none)
  else
    let new_lines := fileLines.filter (fun l => !lineDeleted words_vec l)
    let deleted_count := fileLines.countP (fun l => lineDeleted words_vec l)
    if deleted_count = 0 then ("未找到匹配的词条，未进行删除", none)
    else ("成功删除 " ++ toString deleted_count ++ " 个词条并保存文件", some new_lines)

/-- Embedding of `available_parallelism` (source lines 61-70).  The lazily
initialized static `AVAILABLE_PARALLELISM` is the explicit state `cell` (`none`
before first evaluation); `osQuery` is what `std::thread::available_parallelism`
reports for this call, `none` when the OS query fails.  Returns the value seen by
the caller and the state after the call. -/
def available_parallelism (cell : Option Nat) (osQuery : Option Nat) : Nat × Option Nat :=
  match cell with
  | some v => (v, some v)
  | none =>
    let v := osQuery.getD 1
    (v, some v)

/-- A sequence of calls to `available_parallelism` within one process, threading
the memoization state; element `i` of `osQueries` is what the OS would report at
call `i`.  Returns the values the callers see. -/
def parallelismCalls (cell : Option Nat) : List (Option Nat) → List Nat
  | [] => []
  | os :: rest =>
    let r := available_parallelism cell os
    r.1 :: parallelismCalls r.2 rest

/-- First token of a non-empty, non-comment dictionary line, `none` for empty or
comment lines (the tests `update_or_add_user_dict` applies to each line). -/
def entryFirstTok (line : Chars) : Option Chars :=
  if (trimChars line).isEmpty || startsWithHash (trimChars line) then none
  else (splitWS (trimChars line)).head?

instance (k : AggKind) : Std.Commutative (combineOpt k) :=
  ⟨fun a b => by
    cases a <;> cases b <;>
      cases k <;> simp [combineOpt, combine, Int.add_comm, min_comm, max_comm]⟩

instance (k : AggKind) : Std.Associative (combineOpt k) :=
  ⟨fun a b c => by
    cases a <;> cases b <;> cases c <;>
      cases k <;> simp [combineOpt, combine, Int.add_assoc, min_assoc, max_assoc]⟩

lemma clamp01_nonneg (q : ℚ) : 0 ≤ clamp01 q := le_max_left 0 (min 1 q)

lemma clamp01_le_one (q : ℚ) : clamp01 q ≤ 1 :=
  max_le (by norm_num) (min_le_left 1 q)

lemma estimate_of_unsupported (p : Pred) (stats : Option IndexStats)
    (h : predSupported p = false) : estimate p stats = UNASSIGNED_SELECTIVITY := by
  simp [estimate, h]

lemma estimate_mem_unit_interval (p : Pred) (stats : Option IndexStats)
    (h : predSupported p = true) : 0 ≤ estimate p stats ∧ estimate p stats ≤ 1 := by
  unfold estimate
  rw [h]
  cases stats with
  | none => norm_num [PARAMETERIZED_SELECTIVITY]
  | some s =>
    simp only [if_true]
    split_ifs with h1 h2 h3
    · norm_num [PARAMETERIZED_SELECTIVITY]
    · norm_num [UNKNOWN_SELECTIVITY]
    · norm_num [FULL_RELATION_SELECTIVITY]
    · exact ⟨clamp01_nonneg _, clamp01_le_one _⟩

/-- C1: for every supported predicate the selectivity estimate lies in `[0, 1]`; a
tautological predicate (with statistics present and informative, the regime in which
the estimator's earlier fallback rules do not fire) yields exactly FULL_RELATION,
which equals `1.0`; UNASSIGNED (`-1.0`) is the only value the estimator ever returns
outside `[0, 1]`; and the fallback constants UNKNOWN (`0.00001`) and PARAMETERIZED
(`0.10`) lie inside `[0, 1]`. -/
theorem selectivity_in_unit_interval (p : Pred) (stats : Option IndexStats) :
    (estimate p stats = UNASSIGNED_SELECTIVITY ∨
      (0 ≤ estimate p stats ∧ estimate p stats ≤ 1)) ∧
    (predSupported p = true → 0 ≤ estimate p stats ∧ estimate p stats ≤ 1) ∧
    (∀ s : IndexStats, p = Pred.tt → stats = some s → s.histogram.isEmpty = false →
      estimate p stats = FULL_RELATION_SELECTIVITY) ∧
    FULL_RELATION_SELECTIVITY = 1 ∧
    ¬ (0 ≤ UNASSIGNED_SELECTIVITY ∧ UNASSIGNED_SELECTIVITY ≤ 1) ∧
    (0 ≤ UNKNOWN_SELECTIVITY ∧ UNKNOWN_SELECTIVITY ≤ 1) ∧
    (0 ≤ PARAMETERIZED_SELECTIVITY ∧ PARAMETERIZED_SELECTIVITY ≤ 1) := by
  refine ⟨?_, estimate_mem_unit_interval p stats, ?_, rfl, ?_, ?_, ?_⟩
  · cases hs : predSupported p with
    | false => exact Or.inl (estimate_of_unsupported p stats hs)
    | true => exact Or.inr (estimate_mem_unit_interval p stats hs)
  · intro s hp hstats hhist
    subst hp
    subst hstats
    simp [estimate, predSupported, hasUnboundParam, hhist]
  · norm_num [UNASSIGNED_SELECTIVITY]
  · norm_num [UNKNOWN_SELECTIVITY]
  · norm_num [PARAMETERIZED_SELECTIVITY]

/-- Closed instance of `selectivity_in_unit_interval` at a concrete tautology and
concrete statistics, discharging its hypotheses. -/
theorem selectivity_in_unit_interval_witness :
    estimate Pred.tt (some ⟨[("body", 5)], 10⟩) = FULL_RELATION_SELECTIVITY ∧
    (0 ≤ estimate Pred.tt (some ⟨[("body", 5)], 10⟩) ∧
      estimate Pred.tt (some ⟨[("body", 5)], 10⟩) ≤ 1) :=
  ⟨(selectivity_in_unit_interval Pred.tt (some ⟨[("body", 5)], 10⟩)).2.2.1
      ⟨[("body", 5)], 10⟩ rfl rfl (by decide),
   (selectivity_in_unit_interval Pred.tt (some ⟨[("body", 5)], 10⟩)).2.1 (by decide)⟩

/-- C7: for every supported predicate that references a run-time parameter not
bound at plan time, and likewise whenever statistics are absent, the estimator
returns exactly the fixed PARAMETERIZED constant `0.10`, independent of the
statistics content (and of relation size, which the estimator never consults). -/
theorem parameterized_estimate (p : Pred) (hsupp : predSupported p = true) :
    (∀ stats : Option IndexStats, hasUnboundParam p = true →
      estimate p stats = PARAMETERIZED_SELECTIVITY) ∧
    estimate p none = PARAMETERIZED_SELECTIVITY ∧
    PARAMETERIZED_SELECTIVITY = 1 / 10 := by
  refine ⟨?_, by simp [estimate, hsupp], rfl⟩
  intro stats hu
  cases stats with
  | none => simp [estimate, hsupp]
  | some s => simp [estimate, hsupp, hu]

/-- Closed instance of `parameterized_estimate` at a concrete predicate with an
unbound parameter and two different concrete statistics, discharging its
hypotheses. -/
theorem parameterized_estimate_witness :
    estimate (Pred.cmp CmpOp.eqOp "body" (Operand.unboundParam 0))
        (some ⟨[("body", 5)], 10⟩) = PARAMETERIZED_SELECTIVITY ∧
    estimate (Pred.cmp CmpOp.eqOp "body" (Operand.unboundParam 0))
        (some ⟨[("body", 999)], 1000000⟩) = PARAMETERIZED_SELECTIVITY ∧
    estimate (Pred.cmp CmpOp.eqOp "body" (Operand.unboundParam 0)) none =
      PARAMETERIZED_SELECTIVITY :=
  ⟨(parameterized_estimate _ (by decide)).1 (some ⟨[("body", 5)], 10⟩) (by decide),
   (parameterized_estimate _ (by decide)).1 (some ⟨[("body", 999)], 1000000⟩) (by decide),
   (parameterized_estimate _ (by decide)).2.1⟩

/-- C3: the Cost Model returns `startup_cost` equal to the fixed startup constant
`DEFAULT_STARTUP_COST = 10.0` and `total_cost` equal to
`startup_cost + selectivity * relation_row_count * per_row_probe_cost`, hence
`total_cost ≥ startup_cost` whenever selectivity, row count and per-row probe cost
are non-negative. -/
theorem cost_startup_total (selectivity relation_row_count per_row_probe_cost : ℚ)
    (hs : 0 ≤ selectivity) (hr : 0 ≤ relation_row_count)
    (hc : 0 ≤ per_row_probe_cost) :
    (cost selectivity relation_row_count per_row_probe_cost).startup_cost =
      DEFAULT_STARTUP_COST ∧
    DEFAULT_STARTUP_COST = 10 ∧
    (cost selectivity relation_row_count per_row_probe_cost).total_cost =
      (cost selectivity relation_row_count per_row_probe_cost).startup_cost +
        selectivity * relation_row_count * per_row_probe_cost ∧
    (cost selectivity relation_row_count per_row_probe_cost).startup_cost ≤
      (cost selectivity relation_row_count per_row_probe_cost).total_cost := by
  refine ⟨rfl, rfl, rfl, ?_⟩
  have hprod : 0 ≤ selectivity * relation_row_count * per_row_probe_cost :=
    mul_nonneg (mul_nonneg hs hr) hc
  simpa [cost] using hprod

/-- Closed instance of `cost_startup_total` at concrete non-negative inputs,
discharging its hypotheses. -/
theorem cost_startup_total_witness :
    (cost (1 / 1000) 1000000 (1 / 4)).startup_cost = DEFAULT_STARTUP_COST ∧
    DEFAULT_STARTUP_COST = 10 ∧
    (cost (1 / 1000) 1000000 (1 / 4)).total_cost =
      (cost (1 / 1000) 1000000 (1 / 4)).startup_cost +
        (1 / 1000) * 1000000 * (1 / 4) ∧
    (cost (1 / 1000) 1000000 (1 / 4)).startup_cost ≤
      (cost (1 / 1000) 1000000 (1 / 4)).total_cost :=
  cost_startup_total (1 / 1000) 1000000 (1 / 4) (by norm_num) (by norm_num) (by norm_num)

lemma mem_workUnit (n w i x : Nat) :
    x ∈ workUnit n w i ↔ x < n ∧ x % w = i := by
  simp [workUnit, List.mem_filter, List.mem_range]

/-- C2: for every `(total_identifier_space, worker_count)` with `worker_count ≥ 1`,
partitioning is deterministic (equal inputs give equal work-unit lists), every
identifier of the space lies in some produced work unit and only identifiers of the
space do (union equals the full space), and work units at distinct positions are
pairwise disjoint. -/
theorem partition_disjoint_cover (n w : Nat) (hw : 1 ≤ w) :
    (∀ n2 w2, n = n2 → w = w2 → partition n w = partition n2 w2) ∧
    (∀ x, x < n ↔ ∃ u ∈ partition n w, x ∈ u) ∧
    (∀ i j, i < w → j < w → i ≠ j → ∀ x, x ∈ workUnit n w i → x ∉ workUnit n w j) := by
  refine ⟨?_, ?_, ?_⟩
  · intro n2 w2 hn hw2
    subst hn
    subst hw2
    rfl
  · intro x
    constructor
    · intro hx
      refine ⟨workUnit n w (x % w), ?_, (mem_workUnit n w (x % w) x).2 ⟨hx, rfl⟩⟩
      simp only [partition, List.mem_map]
      exact ⟨x % w, List.mem_range.2 (Nat.mod_lt x hw), rfl⟩
    · rintro ⟨u, hu, hxu⟩
      simp only [partition, List.mem_map, List.mem_range] at hu
      rcases hu with ⟨i, _, rfl⟩
      exact ((mem_workUnit n w i x).1 hxu).1
  · intro i j _ _ hij x hxi hxj
    exact hij (((mem_workUnit n w i x).1 hxi).2 ▸ ((mem_workUnit n w j x).1 hxj).2 ▸ rfl)

/-- Closed instance of `partition_disjoint_cover` at a concrete space and worker
count, discharging its hypotheses. -/
theorem partition_disjoint_cover_witness :
    (10 < 10 ↔ ∃ u ∈ partition 10 3, 10 ∈ u) ∧
    (7 < 10 ↔ ∃ u ∈ partition 10 3, 7 ∈ u) ∧
    ∀ x, x ∈ workUnit 10 3 0 → x ∉ workUnit 10 3 2 :=
  ⟨(partition_disjoint_cover 10 3 (by decide)).2.1 10,
   (partition_disjoint_cover 10 3 (by decide)).2.1 7,
   (partition_disjoint_cover 10 3 (by decide)).2.2 0 2 (by decide) (by decide) (by decide)⟩

/-- C4: if any worker terminates abnormally (or its result channel closes without
a terminal message) before reporting its partial result, the coordinator reports a
hard execution error for the whole pushdown execution and never returns a merged
result computed from the remaining workers' partials. -/
theorem coordinate_fails_on_worker_failure (k : AggKind)
    (outcomes : List WorkerOutcome) (h : WorkerOutcome.failed ∈ outcomes) :
    coordinate k outcomes = Except.error "parallel worker failed before reporting" ∧
    ∀ r, coordinate k outcomes ≠ Except.ok r := by
  have hany : outcomes.any WorkerOutcome.isFailed = true :=
    List.any_eq_true.2 ⟨WorkerOutcome.failed, h, rfl⟩
  refine ⟨by simp [coordinate, hany], ?_⟩
  intro r hr
  simp [coordinate, hany] at hr

/-- Closed instance of `coordinate_fails_on_worker_failure`: four workers where
worker 3 fails before reporting, discharging the membership hypothesis. -/
theorem coordinate_fails_on_worker_failure_witness :
    coordinate AggKind.sumAgg
        [WorkerOutcome.reported [(1, 2)], WorkerOutcome.reported [(1, 3)],
          WorkerOutcome.failed, WorkerOutcome.reported [(2, 5)]] =
      Except.error "parallel worker failed before reporting" ∧
    ∀ r, coordinate AggKind.sumAgg
        [WorkerOutcome.reported [(1, 2)], WorkerOutcome.reported [(1, 3)],
          WorkerOutcome.failed, WorkerOutcome.reported [(2, 5)]] ≠ Except.ok r :=
  coordinate_fails_on_worker_failure AggKind.sumAgg _ (by simp)

/-- C5: the Filter Query Translator is deterministic (referentially transparent):
for every predicate tree it accepts, two calls on structurally equal trees produce
structurally equal filter queries. -/
theorem translate_deterministic (schema : String → FieldType) (p q : Pred)
    (_haccepts : ∃ fq : FilterQuery, translate schema p = Except.ok fq)
    (heq : p = q) : translate schema p = translate schema q := by
  subst heq
  rfl

/-- Closed instance of `translate_deterministic` at a concrete accepted predicate,
discharging its hypotheses. -/
theorem translate_deterministic_witness :
    translate (fun _ => FieldType.text)
        (Pred.andP (Pred.cmp CmpOp.searchOp "body" (Operand.const 7)) Pred.tt) =
      translate (fun _ => FieldType.text)
        (Pred.andP (Pred.cmp CmpOp.searchOp "body" (Operand.const 7)) Pred.tt) :=
  translate_deterministic (fun _ => FieldType.text)
    (Pred.andP (Pred.cmp CmpOp.searchOp "body" (Operand.const 7)) Pred.tt)
    (Pred.andP (Pred.cmp CmpOp.searchOp "body" (Operand.const 7)) Pred.tt)
    ⟨FilterQuery.must (FilterQuery.phrase "body" 7) FilterQuery.all, rfl⟩ rfl

/-- C6: the coordinator's per-key aggregate merge is associative and
order-independent: the lifted combine operation is associative, merging the same
multiset of partials in any order yields the same final per-key result, and a key
absent from some worker's partial set contributes the aggregate's identity
element. -/
theorem merge_assoc_order_independent (k : AggKind) :
    (∀ a b c : Option Int,
      combineOpt k (combineOpt k a b) c = combineOpt k a (combineOpt k b c)) ∧
    (∀ partials1 partials2 : List PartialAcc, List.Perm partials1 partials2 →
      ∀ g, mergedAt k partials1 g = mergedAt k partials2 g) ∧
    (∀ (p : PartialAcc) (ps : List PartialAcc) (g : Nat), accLookup p g = none →
      mergedAt k (p :: ps) g = mergedAt k ps g) := by
  refine ⟨fun a b c => Std.Associative.assoc a b c, ?_, ?_⟩
  · intro ps1 ps2 hperm g
    unfold mergedAt
    exact (hperm.map fun p => accLookup p g).foldl_eq none
  · intro p ps g hnone
    simp [mergedAt, hnone, combineOpt]

/-- Closed instance of `merge_assoc_order_independent`: merging three concrete
partials as `[A, B, C]` and as `[C, A, B]` yields the same per-key result, with the
permutation hypothesis discharged by `decide`. -/
theorem merge_assoc_order_independent_witness :
    mergedAt AggKind.sumAgg [[(1, 5)], [(1, 7), (2, 1)], [(2, 2)]] 1 =
      mergedAt AggKind.sumAgg [[(2, 2)], [(1, 5)], [(1, 7), (2, 1)]] 1 :=
  (merge_assoc_order_independent AggKind.sumAgg).2.1
    [[(1, 5)], [(1, 7), (2, 1)], [(2, 2)]]
    [[(2, 2)], [(1, 5)], [(1, 7), (2, 1)]] (by decide) 1

lemma parallelismCalls_memoized (v : Nat) (oss : List (Option Nat)) :
    parallelismCalls (some v) oss = List.replicate oss.length v := by
  induction oss with
  | nil => rfl
  | cons os rest ih =>
    simp [parallelismCalls, available_parallelism, ih, List.replicate_succ]

/-- C10: `available_parallelism` always returns a value that is at least `1`
(falling back to `1` when the OS query fails, and otherwise returning the
`NonZeroUsize` the OS reports), and every call within the same process returns the
same value as the first call: a whole call sequence returns the first call's value
throughout, whatever the OS would report later. -/
theorem available_parallelism_pos_memoized (os0 : Option Nat)
    (oss : List (Option Nat)) (hos : ∀ p : Nat, os0 = some p → 1 ≤ p) :
    1 ≤ (available_parallelism none os0).1 ∧
    parallelismCalls none (os0 :: oss) =
      List.replicate (oss.length + 1) (available_parallelism none os0).1 := by
  constructor
  · cases os0 with
    | none => simp [available_parallelism]
    | some p => simpa [available_parallelism] using hos p rfl
  · simp [parallelismCalls, available_parallelism, parallelismCalls_memoized,
      List.replicate_succ]

/-- Closed instance of `available_parallelism_pos_memoized`: the OS reports 8 cores
at the first call; later calls observe a failing and then a different OS query but
still return 8. -/
theorem available_parallelism_pos_memoized_witness :
    1 ≤ (available_parallelism none (some 8)).1 ∧
    parallelismCalls none (some 8 :: [none, some 4]) =
      List.replicate ([none, some 4].length + 1) (available_parallelism none (some 8)).1 :=
  available_parallelism_pos_memoized (some 8) [none, some 4]
    (fun p hp => by cases hp; decide)

lemma isPreservedLine_not_deleted (ws : List Chars) (l : Chars)
    (h : isPreservedLine l = true) : lineDeleted ws l = false := by
  simp [lineDeleted, h]

/-- C9: a call to `delete_from_user_dict` in which no supplied (non-null) word
matches the first token of any non-empty, non-comment line — including when the
supplied word list is empty — returns a message without writing (the dictionary is
left unmodified); and in every call, the empty and comment (`#`) lines of the
written-back contents are exactly those of the original file: such lines are never
deleted. -/
theorem delete_no_match_no_write_and_preserves (words : List (Option Chars))
    (fileLines : List Chars) :
    ((∀ l ∈ fileLines, lineDeleted (words.filterMap id) l = false) →
      (delete_from_user_dict words fileLines).2 = none) ∧
    ((delete_from_user_dict words fileLines).2.getD fileLines).filter isPreservedLine
      = fileLines.filter isPreservedLine := by
  constructor
  · intro h
    unfold delete_from_user_dict
    by_cases hempty : (words.filterMap id).isEmpty
    · simp [hempty]
    · have hcount : fileLines.countP (fun l => lineDeleted (words.filterMap id) l) = 0 :=
        List.countP_eq_zero.2 (by simpa using h)
      simp [hempty, hcount]
  · unfold delete_from_user_dict
    by_cases hempty : (words.filterMap id).isEmpty
    · simp [hempty]
    · by_cases hcount :
        fileLines.countP (fun l => lineDeleted (words.filterMap id) l) = 0
      · simp [hempty, hcount]
      · simp only [hempty, hcount, Bool.false_eq_true, if_false, if_neg,
          Option.getD_some]
        rw [List.filter_filter]
        refine List.filter_congr ?_
        intro l _
        cases hp : isPreservedLine l with
        | false => simp
        | true => simp [isPreservedLine_not_deleted (words.filterMap id) l hp]

/-- Closed instance of `delete_no_match_no_write_and_preserves` at a concrete
non-matching word list and dictionary, discharging the no-match hypothesis. -/
theorem delete_no_match_no_write_and_preserves_witness :
    (delete_from_user_dict [some "absent".data] ["# note".data, "foo 100".data, "".data]).2 = none ∧
    ((delete_from_user_dict [some "absent".data] ["# note".data, "foo 100".data, "".data]).2.getD
        ["# note".data, "foo 100".data, "".data]).filter isPreservedLine
      = (["# note".data, "foo 100".data, "".data] : List Chars).filter isPreservedLine :=
  ⟨(delete_no_match_no_write_and_preserves [some "absent".data]
        ["# note".data, "foo 100".data, "".data]).1 (by decide),
   (delete_no_match_no_write_and_preserves [some "absent".data]
        ["# note".data, "foo 100".data, "".data]).2⟩

lemma updateLoop_unchanged_error (word : Chars) (lines : List Chars)
    (h : ∃ l ∈ lines, entryFirstTok l = some word) :
    updateLoop word none none lines = Except.error (msgExistsNoMod word) := by
  induction lines with
  | nil => simp at h
  | cons line rest ih =>
    by_cases h1 : ((trimChars line).isEmpty || startsWithHash (trimChars line)) = true
    · have h' : ∃ l ∈ rest, entryFirstTok l = some word := by
        rcases h with ⟨l, hl, hw⟩
        rcases List.mem_cons.1 hl with rfl | hmem
        · simp [entryFirstTok, h1] at hw
        · exact ⟨l, hmem, hw⟩
      simp [updateLoop, h1, ih h']
    · cases hp : splitWS (trimChars line) with
      | nil =>
        have h' : ∃ l ∈ rest, entryFirstTok l = some word := by
          rcases h with ⟨l, hl, hw⟩
          rcases List.mem_cons.1 hl with rfl | hmem
          · simp [entryFirstTok, h1, hp] at hw
          · exact ⟨l, hmem, hw⟩
        simp [updateLoop, h1, hp, ih h']
      | cons ew restParts =>
        by_cases hew : ew = word
        · subst hew
          simp [updateLoop, h1, hp]
        · have h' : ∃ l ∈ rest, entryFirstTok l = some word := by
            rcases h with ⟨l, hl, hw⟩
            rcases List.mem_cons.1 hl with rfl | hmem
            · rw [entryFirstTok, if_neg (by simp [h1]), hp] at hw
              exact absurd (Option.some.inj hw) hew
            · exact ⟨l, hmem, hw⟩
          simp [updateLoop, h1, hp, hew, ih h']

/-- C8: when the given word already exists as the first token of a dictionary
line and both the `freq` and `tag` arguments are `None`,
`update_or_add_user_dict` returns the word-exists, no-modification-needed
message and performs no write: the dictionary file is left completely
unchanged. -/
theorem update_existing_unchanged_no_write (word : Chars) (dictLines : List Chars)
    (h : ∃ l ∈ dictLines, entryFirstTok l = some word) :
    update_or_add_user_dict word none none dictLines = (msgExistsNoMod word, none) := by
  unfold update_or_add_user_dict
  rw [updateLoop_unchanged_error word dictLines h]

/-- Closed instance of `update_existing_unchanged_no_write` at a concrete word
and dictionary containing it, discharging the existence hypothesis. -/
theorem update_existing_unchanged_no_write_witness :
    update_or_add_user_dict "foo".data none none
        ["# c".data, "foo 100 n".data, "bar 2".data]
      = (msgExistsNoMod "foo".data, none) :=
  update_existing_unchanged_no_write "foo".data
    ["# c".data, "foo 100 n".data, "bar 2".data] (by decide)

end PgSearch
